import Mathlib

set_option linter.unusedVariables false

/-!
Verification development for the be-form-extraction service.

We give a shallow embedding of the parts of the code that the specification's
testable properties are about: the Firestore access layer
(`src/database/firestore.py`), the Celery worker tasks (`src/tasks.py`),
the extraction post-processing (`src/chain/completions.py`),
the enqueue endpoint (`src/main.py`, `queue_extract_form`), the
timestamp naming on both upload paths, and the folder-path sanitizer
(`src/utils/path_sanitizer.py`).

Python/JSON values stored in documents are modelled by `PyVal`; a Firestore
document is an association list of fields; a collection maps document ids to
documents; the whole store maps collection names to collections.  External
collaborators (Google Cloud Storage, the network, the LLM, the system clock,
`json.loads`) are oracle inputs threaded through the modelled functions.
-/

namespace FormExtract

/-- Model of a Python/JSON value as stored in a Firestore document. -/
inductive PyVal where
  | str (s : String)
  | num (q : ℚ)
  | bool (b : Bool)
  | none
  | list (l : List PyVal)
  | obj (l : List (String × PyVal))

/-- A Firestore document: field name to value, in insertion order. -/
abbrev PyDict := List (String × PyVal)

/-- A Firestore collection: document id to document, in stream order. -/
abbrev Collection := List (String × PyDict)

/-- The Firestore database: collection name to collection. -/
abbrev Store := List (String × Collection)

/-- Collection of `st` named `name` (empty if never written). -/
def getColl (st : Store) (name : String) : Collection :=
  (List.lookup name st).getD []

/-- Replace collection `name` of the store with `c`. -/
def setColl : Store → String → Collection → Store
  | [], name, c => [(name, c)]
  | (n, col) :: rest, name, c =>
    if n = name then (name, c) :: rest else (n, col) :: setColl rest name c

/-- `doc_ref.set(data)`: overwrite the document at `id`, or append a new one. -/
def collSet : Collection → String → PyDict → Collection
  | [], id, d => [(id, d)]
  | (i, doc) :: rest, id, d =>
    if i = id then (id, d) :: rest else (i, doc) :: collSet rest id d

/-- `doc_ref.delete()`: remove the document with the given id. -/
def collDelete (c : Collection) (id : String) : Collection :=
  c.filter (fun p => !(p.1 == id))

/-- Batched deletion of all documents whose id occurs in `ids`. -/
def collDeleteMany (c : Collection) (ids : List String) : Collection :=
  c.filter (fun p => !(ids.contains p.1))

/-- Set a single field of a document (Firestore `batch.update` semantics:
replace the field in place, or append it if absent). -/
def dictSet : PyDict → String → PyVal → PyDict
  | [], k, v => [(k, v)]
  | (k', v') :: rest, k, v =>
    if k' = k then (k, v) :: rest else (k', v') :: dictSet rest k v

/-- `doc_ref.set(data, merge=True)`: fields of `new` overwrite or extend `old`. -/
def dictMerge (old new : PyDict) : PyDict :=
  new.foldl (fun acc kv => dictSet acc kv.1 kv.2) old

/-- `doc_ref.set(data, merge=True)` at the collection level. -/
def collSetMerge (c : Collection) (id : String) (d : PyDict) : Collection :=
  match List.lookup id c with
  | Option.some old => collSet c id (dictMerge old d)
  | Option.none => collSet c id d

/-- Python `existing.get(key, default)` restricted to string-typed fields
(the modelled code only ever stores strings in these fields). -/
def getStrD (doc : PyDict) (key : String) (dflt : String) : String :=
  match List.lookup key doc with
  | Option.some (PyVal.str s) => s
  | _ => dflt

/-- Python `existing.get(key, default)` restricted to numeric fields. -/
def getNumD (doc : PyDict) (key : String) (dflt : ℚ) : ℚ :=
  match List.lookup key doc with
  | Option.some (PyVal.num q) => q
  | _ => dflt

/-- Python `doc.get(key) == s` for a string literal `s`: true only when the
field is present and is the equal string. -/
def pyEqStr (v : Option PyVal) (s : String) : Bool :=
  match v with
  | Option.some (PyVal.str t) => t == s
  | _ => false

/-- Python `a or b` on strings (`""` is falsy). -/
def pyOrStr (a b : String) : String := if a = "" then b else a

/-- Python `a or b` on floats (`0.0` is falsy). -/
def pyOrRat (a b : ℚ) : ℚ := if a = 0 then b else a

/-- Firestore string order (byte/code-point order) as a Boolean on char lists. -/
def charsLe : List Char → List Char → Bool
  | [], _ => true
  | _ :: _, [] => false
  | a :: as, b :: bs =>
    if a.toNat < b.toNat then true
    else if a.toNat = b.toNat then charsLe as bs
    else false

/-- Firestore string `<=` used by the range queries in `firestore.py`. -/
def strLeB (a b : String) : Bool := charsLe a.data b.data

/-- `upsert_image` (`src/database/firestore.py:33`): `doc_ref.set(data_dict)`.
The duck-typed conversion step is modelled by the caller passing the
document dictionary. -/
def upsert_image (data : PyDict) (collection_name key_upload : String)
    (st : Store) : Store :=
  setColl st collection_name (collSet (getColl st collection_name) key_upload data)

/-- `get_image` (`src/database/firestore.py:59`): document by id, or `None`. -/
def get_image (image_name collection_name : String) (st : Store) : Option PyDict :=
  List.lookup image_name (getColl st collection_name)

/-- `delete_image` (`src/database/firestore.py:75`). -/
def delete_image (image_name collection_name : String) (st : Store) : Store :=
  setColl st collection_name (collDelete (getColl st collection_name) image_name)

/-- `ImageData` pydantic model (`src/database/firestore.py:20`). -/
structure ImageData where
  Status : String
  ImageName : String
  ImagePath : String
  CreatedAt : String
  FolderPath : String := ""
  Size : ℚ := 0
deriving DecidableEq

/-- `ImageData().dict()`: the document written by `upsert_image`. -/
def ImageData.dict (d : ImageData) : PyDict :=
  [("Status", PyVal.str d.Status), ("ImageName", PyVal.str d.ImageName),
   ("ImagePath", PyVal.str d.ImagePath), ("CreatedAt", PyVal.str d.CreatedAt),
   ("FolderPath", PyVal.str d.FolderPath), ("Size", PyVal.num d.Size)]

/-- `FOLDER_COLLECTION` (`src/database/firestore.py:130`). -/
def FOLDER_COLLECTION : String := "imagefolders"

/-- `_encode_path` (`src/database/firestore.py:133`):
`path.replace("/", "__") if path else "root"`.  Since the pattern is the
single character `"/"`, `str.replace` is the per-character expansion. -/
def encode_path (path : String) : String :=
  if path = "" then "root"
  else String.mk (path.data.flatMap (fun c => if c = '/' then ['_', '_'] else [c]))

/-- `upsert_folder` (`src/database/firestore.py:138`): merge-set of
`{"FolderPath": path, "CreatedAt": now}` where `now = datetime.utcnow().isoformat()`
is an oracle input of the model. -/
def upsert_folder (now path : String) (st : Store) : Store :=
  setColl st FOLDER_COLLECTION
    (collSetMerge (getColl st FOLDER_COLLECTION) (encode_path path)
      [("FolderPath", PyVal.str path), ("CreatedAt", PyVal.str now)])

/-- The Firestore sentinel character U+F8FF used as range upper bound. -/
def SENTINEL : String := "\uf8ff"

/-- Membership of a document in a
`.where("FolderPath", ">=", lo).where("FolderPath", "<=", hi)` query result:
the field must exist, be a string, and lie in the closed range. -/
def folderPathInRange (lo hi : String) (doc : PyDict) : Bool :=
  match List.lookup "FolderPath" doc with
  | Option.some (PyVal.str s) => strLeB lo s && strLeB s hi
  | _ => false

/-- The count-and-commit loop of `delete_folder`
(`src/database/firestore.py:178`): accumulate deletes, commit a batch each
time the count reaches 450, commit the remainder at the end.  Returns the
committed batches in order. -/
def deleteChunksAux : List String → List String → List (List String)
  | [], cur => if cur.isEmpty then [] else [cur.reverse]
  | id :: rest, cur =>
    let cur' := id :: cur
    if cur'.length ≥ 450 then cur'.reverse :: deleteChunksAux rest []
    else deleteChunksAux rest cur'

/-- `collections_to_clean` (`src/database/firestore.py:169`). -/
def collections_to_clean : List String := ["imagedetail", "forminformation"]

/-- `delete_folder` (`src/database/firestore.py:151`).  Returns the final
store together with, per cleaned item collection, the committed delete
batches (lists of document ids).  Blob-store deletion is out of scope. -/
def delete_folder (path : String) (st : Store) :
    Store × List (String × List (List String)) :=
  -- delete the folder's own doc
  let st1 := setColl st FOLDER_COLLECTION
    (collDelete (getColl st FOLDER_COLLECTION) (encode_path path))
  -- delete subfolder docs: range [path + "/", path + "/" + SENTINEL], one batch
  let subRange := fun (d : PyDict) =>
    folderPathInRange (path ++ "/") (path ++ "/" ++ SENTINEL) d
  let st2 := setColl st1 FOLDER_COLLECTION
    ((getColl st1 FOLDER_COLLECTION).filter (fun p => !(subRange p.2)))
  -- purge item collections: range [path, path + SENTINEL], batches of 450
  let cleanOne := fun (st : Store) (col : String) =>
    let matched := (getColl st col).filter
      (fun p => folderPathInRange path (path ++ SENTINEL) p.2)
    let ids := matched.map (fun p => p.1)
    let batches := deleteChunksAux ids []
    (setColl st col (collDeleteMany (getColl st col) ids), batches)
  let step := fun (acc : Store × List (String × List (List String))) (col : String) =>
    let r := cleanOne acc.1 col
    (r.1, acc.2 ++ [(col, r.2)])
  collections_to_clean.foldl step (st2, [])

/-- `rename_folder` (`src/database/firestore.py:192`): one write batch that
moves the folder document (set new, delete old, preserving `CreatedAt`) and
updates `FolderPath` on every `imagedetail` document whose `FolderPath`
equals `old_path` exactly. -/
def rename_folder (old_path new_path : String) (st : Store) : Store :=
  let folderColl := getColl st FOLDER_COLLECTION
  let st1 :=
    match List.lookup (encode_path old_path) folderColl with
    | Option.some oldDoc =>
      let c1 := collSet folderColl (encode_path new_path)
        [("FolderPath", PyVal.str new_path),
         ("CreatedAt", (List.lookup "CreatedAt" oldDoc).getD (PyVal.str ""))]
      setColl st FOLDER_COLLECTION (collDelete c1 (encode_path old_path))
    | Option.none => st
  let imgs := getColl st1 "imagedetail"
  setColl st1 "imagedetail"
    (imgs.map (fun p =>
      if pyEqStr (List.lookup "FolderPath" p.2) old_path then
        (p.1, dictSet p.2 "FolderPath" (PyVal.str new_path))
      else p))

/-- Field `field` of document `id` in collection `col` of `st`. -/
def docField (st : Store) (col id field : String) : Option PyVal :=
  (get_image id col st).bind (List.lookup field)

/-! ## Extraction post-processing and the extraction worker task -/

/-- Python `str(result)`, as applied by `extract_form_task` when wrapping a
non-mapping extraction result into `{"raw": str(result)}`.  The claims never
inspect the rendered text, only that the wrap happens. -/
def pyStr : PyVal → String
  | PyVal.str s => s
  | PyVal.num q => toString q
  | PyVal.bool b => if b then "True" else "False"
  | PyVal.none => "None"
  | PyVal.list l =>
    "[" ++ String.intercalate ", " (l.attach.map (fun x => pyStr x.1)) ++ "]"
  | PyVal.obj l =>
    "\x7b" ++
      String.intercalate ", "
        (l.attach.map (fun kv => kv.1.1 ++ ": " ++ pyStr kv.1.2)) ++ "\x7d"
decreasing_by
  · simp_wf
    have := List.sizeOf_lt_of_mem x.2
    omega
  · simp_wf
    have h := List.sizeOf_lt_of_mem kv.2
    obtain ⟨⟨a, b⟩, hm⟩ := kv
    simp only [Prod.mk.sizeOf_spec] at h
    simp only
    omega

/-- `TicketChatBot.post_processing` (`src/chain/completions.py:75`):
return `json.loads(content)` on success; on `JSONDecodeError` return
`{"error": "Invalid JSON format", "raw_response": content}`.
`jsonParse` is the oracle standing for the stdlib JSON parser. -/
def post_processing (jsonParse : String → Option PyVal) (content : String) : PyVal :=
  match jsonParse content with
  | Option.some v => v
  | Option.none =>
    PyVal.obj [("error", PyVal.str "Invalid JSON format"),
               ("raw_response", PyVal.str content)]

/-- The exceptions that can escape `extract_form_task` and turn the Celery
job state to FAILURE; each constructor is one transport/IO raise site. -/
inductive TaskErr where
  | downloadError
  | engineError
  | storeReadError
  | storeWriteError
deriving DecidableEq

/-- Oracle inputs of one `extract_form_task` run: whether each external call
succeeds, the engine's response content, and the stdlib JSON parser. -/
structure TaskEnv where
  /-- the `get_image` inside the pre-mark `try` returns (vs. raises) -/
  premarkGetOk : Bool
  /-- the `upsert_image` inside the pre-mark `try` succeeds (vs. raises) -/
  premarkSetOk : Bool
  /-- `download_image_from_url_sync` succeeds -/
  downloadOk : Bool
  /-- `analyze_ticket_sync` up to `post_processing`: `some content` is the
  model's response text, `none` a transport-level raise (file read, network) -/
  engineContent : Option String
  /-- stdlib `json.loads`: `some v` on success, `none` for `JSONDecodeError` -/
  jsonParse : String → Option PyVal
  /-- the `get_image` in the size-fallback branch returns (vs. raises) -/
  fallbackGetOk : Bool
  /-- the `upsert_image` into `forminformation` succeeds -/
  formWriteOk : Bool
  /-- the final `upsert_image` into `imagedetail` succeeds -/
  detailWriteOk : Bool

/-- The `existing` binding of the pre-mark block (`src/tasks.py:90`):
bound iff the guarded `get_image` returned without raising, and then
defaulted to `{}` (`or {}`). -/
def premarkExisting (env : TaskEnv) (image_name : String) (st : Store) :
    Option PyDict :=
  if env.premarkGetOk then
    Option.some ((get_image image_name "imagedetail" st).getD [])
  else Option.none

/-- Store after the swallowed pre-mark-as-Processing block
(`src/tasks.py:89`): unchanged when either guarded call raises. -/
def premarkStore (env : TaskEnv) (image_name image_url : String) (size : ℚ)
    (created_at folder_path : String) (st : Store) : Store :=
  match premarkExisting env image_name st with
  | Option.none => st
  | Option.some existing =>
    if env.premarkSetOk then
      let processing_meta : ImageData :=
        { Status := "Processing", ImageName := image_name, ImagePath := image_url,
          CreatedAt := pyOrStr created_at (getStrD existing "CreatedAt" ""),
          FolderPath := pyOrStr folder_path (getStrD existing "FolderPath" ""),
          Size := pyOrRat size (getNumD existing "Size" 0) }
      upsert_image processing_meta.dict "imagedetail" image_name st
    else st

/-- `src/tasks.py:113`: a non-mapping analysis result is wrapped into
`{"raw": str(result)}`; a mapping passes through. -/
def wrapResult : PyVal → PyVal
  | PyVal.obj l => PyVal.obj l
  | r => PyVal.obj [("raw", PyVal.str (pyStr r))]

/-- The size-fallback step (`src/tasks.py:118`): only when `size` is falsy;
reuses `existing` when the pre-mark block bound it, else re-reads the
record (which can itself raise). -/
def fallbackSize (env : TaskEnv) (image_name : String) (size : ℚ)
    (st st1 : Store) : Except TaskErr ℚ :=
  if size = 0 then
    match premarkExisting env image_name st with
    | Option.some existing => Except.ok (getNumD existing "Size" 0)
    | Option.none =>
      if env.fallbackGetOk then
        Except.ok (getNumD ((get_image image_name "imagedetail" st1).getD []) "Size" 0)
      else Except.error TaskErr.storeReadError
  else Except.ok size

/-- The `form_doc` written to `forminformation` (`src/tasks.py:124`). -/
def extractFormDoc (image_name image_url created_at folder_path : String)
    (size' : ℚ) (result : PyVal) : PyDict :=
  [("Status", PyVal.str "Completed"), ("ImageName", PyVal.str image_name),
   ("ImagePath", PyVal.str image_url), ("CreatedAt", PyVal.str created_at),
   ("FolderPath", PyVal.str folder_path), ("Size", PyVal.num size'),
   ("analysis_result", result)]

/-- The final `meta` written to `imagedetail` (`src/tasks.py:137`). -/
def extractMeta (image_name image_url created_at folder_path : String)
    (size' : ℚ) : ImageData :=
  { Status := "Completed", ImageName := image_name, ImagePath := image_url,
    CreatedAt := created_at, FolderPath := folder_path, Size := size' }

/-- `extract_form_task` (`src/tasks.py:73`).  Returns the store after the
run together with the task outcome: `Except.ok` is Celery SUCCESS carrying
the returned payload, `Except.error` is a propagated exception (FAILURE).
Local temp-file handling has no store effect and is not modelled. -/
def extract_form_task (env : TaskEnv) (image_name image_url : String) (size : ℚ)
    (status created_at folder_path : String) (st : Store) :
    Store × Except TaskErr PyDict :=
  -- pre-mark as Processing; any exception here is swallowed (src/tasks.py:89)
  let st1 : Store := premarkStore env image_name image_url size created_at folder_path st
  -- download (src/tasks.py:107); a raise propagates
  if !env.downloadOk then (st1, Except.error TaskErr.downloadError) else
  -- analyze (src/tasks.py:112); a transport raise propagates
  match env.engineContent with
  | Option.none => (st1, Except.error TaskErr.engineError)
  | Option.some content =>
    -- `post_processing` then the non-mapping wrap (src/tasks.py:112)
    let result : PyVal := wrapResult (post_processing env.jsonParse content)
    match fallbackSize env image_name size st st1 with
    | Except.error e => (st1, Except.error e)
    | Except.ok size' =>
      -- save extraction result to forminformation (src/tasks.py:124)
      if !env.formWriteOk then (st1, Except.error TaskErr.storeWriteError) else
      let st2 := upsert_image
        (extractFormDoc image_name image_url created_at folder_path size' result)
        "forminformation" image_name st1
      -- update status in imagedetail (src/tasks.py:137)
      if !env.detailWriteOk then (st2, Except.error TaskErr.storeWriteError) else
      let st3 := upsert_image
        (extractMeta image_name image_url created_at folder_path size').dict
        "imagedetail" image_name st2
      (st3, Except.ok [("image_name", PyVal.str image_name), ("analysis_result", result)])

/-- Whether a task outcome is a propagated exception (Celery FAILURE). -/
def taskRaised : Except TaskErr PyDict → Bool
  | Except.error _ => true
  | Except.ok _ => false

/-! ## The enqueue endpoint `queue_extract_form` -/

/-- An HTTP error raised by an endpoint (`fastapi.HTTPException`). -/
inductive HTTPErr where
  | httpException (status_code : Nat) (detail : String)
deriving DecidableEq

/-- `ExtractFormData` request model (`src/main.py:108`). -/
structure ExtractFormData where
  FolderPath : String := ""
  Status : String
  ImagePath : String
  Size : ℚ := 0
  ImageName : String
  CreatedAt : String
deriving DecidableEq

/-- The positional argument tuple handed to `extract_form_task.apply_async`
(`src/main.py:552`). -/
structure ExtractArgs where
  image_name : String
  image_url : String
  size : ℚ
  status : String
  created_at : String
  folder_path : String
deriving DecidableEq

/-- State visible to the enqueue endpoint: the record store and the queue of
enqueued extraction jobs (in enqueue order). -/
structure ApiState where
  store : Store
  queue : List ExtractArgs

/-- Response of `queue_extract_form` on the non-raising paths. -/
inductive QueueResp where
  | queued (task_id : String)
  | already_processing
deriving DecidableEq

/-- `queue_extract_form` (`src/main.py:524`).  `premarkOk` is the oracle for
the swallowed pre-mark `upsert_image`; `task_id` for the broker-assigned id.
Returns the next state and either an `HTTPException` or the JSON response.
The guard `if not existing:` (`src/main.py:532`) is a Python falsiness test,
so both an absent record (`None`) and an existing empty document (`{}`)
take the 404 branch. -/
def queue_extract_form (premarkOk : Bool) (task_id : String)
    (data : ExtractFormData) (st : ApiState) :
    ApiState × Except HTTPErr QueueResp :=
  match get_image data.ImageName "imagedetail" st.store with
  | Option.none =>
    (st, Except.error (HTTPErr.httpException 404 "Image not found. Upload first."))
  | Option.some existing =>
    if existing.isEmpty then
      (st, Except.error (HTTPErr.httpException 404 "Image not found. Upload first."))
    else if pyEqStr (List.lookup "Status" existing) "Processing" then
      (st, Except.ok QueueResp.already_processing)
    else
      -- optimistic Processing mark; a raise is swallowed (src/main.py:538)
      let store' :=
        if premarkOk then
          let processing_meta : ImageData :=
            { Status := "Processing", ImageName := data.ImageName,
              ImagePath := pyOrStr data.ImagePath (getStrD existing "ImagePath" ""),
              CreatedAt := pyOrStr data.CreatedAt (getStrD existing "CreatedAt" ""),
              FolderPath := pyOrStr data.FolderPath (getStrD existing "FolderPath" ""),
              Size := pyOrRat data.Size (getNumD existing "Size" 0) }
          upsert_image processing_meta.dict "imagedetail" data.ImageName st.store
        else st.store
      let args : ExtractArgs :=
        { image_name := data.ImageName, image_url := data.ImagePath,
          size := data.Size, status := data.Status,
          created_at := data.CreatedAt, folder_path := data.FolderPath }
      ({ store := store', queue := st.queue ++ [args] },
       Except.ok (QueueResp.queued task_id))

/-! ## Timestamp naming on the two upload paths -/

/-- Firestore string `<` (strict), for stating half-open ranges. -/
def charsLt : List Char → List Char → Bool
  | [], [] => false
  | [], _ :: _ => true
  | _ :: _, [] => false
  | a :: as, b :: bs =>
    if a.toNat < b.toNat then true
    else if a.toNat = b.toNat then charsLt as bs
    else false

/-- Strict string order on byte/code-point order. -/
def strLtB (a b : String) : Bool := charsLt a.data b.data

/-- The character printed for decimal digit `d % 10`. -/
def digitChar (d : Nat) : Char :=
  match d % 10 with
  | 0 => '0' | 1 => '1' | 2 => '2' | 3 => '3' | 4 => '4'
  | 5 => '5' | 6 => '6' | 7 => '7' | 8 => '8' | _ => '9'

/-- Decimal printing, least-significant digit peeled off last; the first
argument is fuel for structural termination (always sufficient below). -/
def natDecimalAux : Nat → Nat → List Char
  | 0, _ => []
  | fuel + 1, n =>
    if n < 10 then [digitChar n]
    else natDecimalAux fuel (n / 10) ++ [digitChar (n % 10)]

/-- Decimal digits of `n`, most significant first (Python `str(n)`). -/
def natDecimal (n : Nat) : List Char := natDecimalAux (n + 1) n

/-- Python `f"%0{w}d"` zero-padded decimal formatting (also the behavior of
`strftime` numeric directives). -/
def padNum (w n : Nat) : List Char :=
  List.replicate (w - (natDecimal n).length) '0' ++ natDecimal n

/-- `strftime("%Y%m%d_%H%M%S")` at a clock reading broken into fields. -/
def strftimeYmdHMS (y mo d h mi s : Nat) : List Char :=
  padNum 4 y ++ padNum 2 mo ++ padNum 2 d ++ ['_'] ++
    padNum 2 h ++ padNum 2 mi ++ padNum 2 s

/-- `_timestamp_name` (`src/tasks.py:27`):
`time.strftime("%Y%m%d_%H%M%S") + f"_{int(time.time()*1000)%1000:03d}{ext}"`.
`ms` models `int(time.time()*1000)`. -/
def timestamp_name (y mo d h mi s ms : Nat) (ext : String) : String :=
  String.mk (strftimeYmdHMS y mo d h mi s ++ ['_'] ++ padNum 3 (ms % 1000) ++ ext.data)

/-- `l₁` is a prefix of `l₂`. -/
def isPre : List Char → List Char → Bool
  | [], _ => true
  | _ :: _, [] => false
  | a :: as, b :: bs => a == b && isPre as bs

/-- Prefix of the string before the first occurrence of the non-empty
separator `sep`: Python `s.split(sep)[0]`. -/
def splitFirst (sep : List Char) : List Char → List Char
  | [] => []
  | c :: rest => if isPre sep (c :: rest) then [] else c :: splitFirst sep rest

/-- The `CreatedAt` string written by the asynchronous `upload_image_task`
(`src/tasks.py:59`): `image_name.split(ext)[0]`. -/
def upload_task_created_at (y mo d h mi s ms : Nat) (ext : String) : String :=
  String.mk (splitFirst ext.data (timestamp_name y mo d h mi s ms ext).data)

/-- The `CreatedAt` string written by the synchronous `upload_image` endpoint
(`src/main.py:252`): `datetime.utcnow().strftime("%Y%m%d_%H%M%S_%f")`,
where `%f` is the microsecond count zero-padded to six digits. -/
def upload_sync_created_at (y mo d h mi s micro : Nat) : String :=
  String.mk (strftimeYmdHMS y mo d h mi s ++ ['_'] ++ padNum 6 micro)

/-- ASCII decimal digit. -/
def isDigitCh (c : Char) : Bool := 48 ≤ c.toNat && c.toNat ≤ 57

/-- `cs` consists of underscore-separated all-digit runs of the given
lengths. -/
def digitRun : List Nat → List Char → Bool
  | [], cs => cs.isEmpty
  | [n], cs => cs.length == n && cs.all isDigitCh
  | n :: ns, cs =>
    ((cs.take n).length == n) && (cs.take n).all isDigitCh &&
      match cs.drop n with
      | '_' :: rest => digitRun ns rest
      | _ => false

/-- The format the spec claims for `createdAt`: `YYYYMMDD_HHMMSS_ffffff`
(six fractional digits). -/
def matchesSpecTimestampFormat (s : String) : Bool := digitRun [8, 6, 6] s.data

/-- The format the async upload path actually produces:
`YYYYMMDD_HHMMSS_mmm` (three millisecond digits). -/
def matchesMsTimestampFormat (s : String) : Bool := digitRun [8, 6, 3] s.data

/-! ## Folder-path sanitizer (`src/utils/path_sanitizer.py`) -/

/-- Whitespace removed by Python `str.strip()`. -/
def isSpaceCh (c : Char) : Bool :=
  c == ' ' || c == '\t' || c == '\n' || c == '\r' || c == '\x0b' || c == '\x0c'

/-- Python `str.strip()`. -/
def pyStrip (s : String) : String :=
  String.mk (((s.data.dropWhile isSpaceCh).reverse.dropWhile isSpaceCh).reverse)

/-- One character of the regex class of word characters, hyphen and slash
(ASCII part of the word class; the wider Unicode word characters Python
also accepts are not needed here). -/
def isWordDashSlash (c : Char) : Bool :=
  ('a' ≤ c && c ≤ 'z') || ('A' ≤ c && c ≤ 'Z') || ('0' ≤ c && c ≤ '9') ||
    c == '_' || c == '-' || c == '/'

/-- Split on `'/'` (components of a POSIX path, empty ones included). -/
def splitSlash : List Char → List (List Char)
  | [] => [[]]
  | '/' :: rest => [] :: splitSlash rest
  | c :: rest =>
    match splitSlash rest with
    | [] => [[c]]
    | g :: gs => (c :: g) :: gs

/-- Join components with `'/'`. -/
def joinSlash : List (List Char) → List Char
  | [] => []
  | [g] => g
  | g :: gs => g ++ '/' :: joinSlash gs

/-- `str(PurePosixPath(s))`: drop empty and `"."` components, keep `".."`,
preserve a root of one (or three-plus) leading slashes as `"/"` and exactly
two as `"//"`, and render `"."` for an empty relative path. -/
def posixNormalize (s : String) : String :=
  let root : List Char :=
    if isPre ['/', '/'] s.data && !(isPre ['/', '/', '/'] s.data) then ['/', '/']
    else if isPre ['/'] s.data then ['/']
    else []
  let comps := (splitSlash s.data).filter (fun g => !(g.isEmpty) && !(g == ['.']))
  let body := joinSlash comps
  if root.isEmpty && body.isEmpty then "." else String.mk (root ++ body)

/-- `sub` occurs as a contiguous substring (Python `sub in s`). -/
def hasSub (sub : List Char) : List Char → Bool
  | [] => sub.isEmpty
  | c :: rest => isPre sub (c :: rest) || hasSub sub rest

/-- `sanitize_folder_path` (`src/utils/path_sanitizer.py:10`): empty input
passes through; otherwise strip, enforce the character class, normalize,
and reject absolute paths and traversal attempts. -/
def sanitize_folder_path (folder_path : String) : Except HTTPErr String :=
  if folder_path = "" then Except.ok ""
  else
    let fp := pyStrip folder_path
    if fp.data.isEmpty || !(fp.data.all isWordDashSlash) then
      Except.error (HTTPErr.httpException 400
        "Invalid folder path. Only alphanumeric characters, underscores, hyphens, and forward slashes are allowed.")
    else
      let normalized := posixNormalize fp
      if isPre ['/'] normalized.data then
        Except.error (HTTPErr.httpException 400 "Absolute paths are not allowed")
      else if hasSub ['.', '.'] normalized.data then
        Except.error (HTTPErr.httpException 400 "Path traversal attempts are not allowed")
      else if isPre ['.', '.'] normalized.data then
        Except.error (HTTPErr.httpException 400 "Path must not escape base directory")
      else Except.ok normalized

/-! ## Store helper lemmas -/

lemma beq_false_of_ne {a b : String} (h : ¬ a = b) : (a == b) = false :=
  beq_eq_false_iff_ne.mpr h

lemma getColl_setColl (st : Store) (n m : String) (c : Collection) :
    getColl (setColl st n c) m = if n = m then c else getColl st m := by
  induction st with
  | nil =>
    by_cases hnm : n = m
    · subst hnm; simp [setColl, getColl, List.lookup]
    · have hb : (m == n) = false := beq_false_of_ne (fun h => hnm h.symm)
      simp [setColl, getColl, List.lookup, hnm, hb]
  | cons head tl ih =>
    obtain ⟨k, col⟩ := head
    by_cases hk : k = n
    · subst hk
      by_cases hnm : k = m
      · subst hnm; simp [setColl, getColl, List.lookup]
      · have hb : (m == k) = false := beq_false_of_ne (fun h => hnm h.symm)
        simp [setColl, getColl, List.lookup, hnm, hb]
    · by_cases hkm : k = m
      · subst hkm
        have hnm : ¬ n = k := fun h => hk h.symm
        simp [setColl, getColl, List.lookup, hk, hnm]
      · have hb : (m == k) = false := beq_false_of_ne (fun h => hkm h.symm)
        simp only [setColl, if_neg hk, getColl, List.lookup, hb] at *
        exact ih

lemma lookup_collSet (c : Collection) (i j : String) (d : PyDict) :
    List.lookup i (collSet c j d) =
      if j = i then Option.some d else List.lookup i c := by
  induction c with
  | nil =>
    by_cases hji : j = i
    · subst hji; simp [collSet, List.lookup]
    · have hb : (i == j) = false := beq_false_of_ne (fun h => hji h.symm)
      simp [collSet, List.lookup, hji, hb]
  | cons head tl ih =>
    obtain ⟨k, doc⟩ := head
    by_cases hk : k = j
    · subst hk
      by_cases hji : k = i
      · subst hji; simp [collSet, List.lookup]
      · have hb : (i == k) = false := beq_false_of_ne (fun h => hji h.symm)
        simp [collSet, List.lookup, hji, hb]
    · by_cases hki : k = i
      · subst hki
        have hji : ¬ j = k := fun h => hk h.symm
        simp [collSet, List.lookup, hk, hji]
      · have hb : (i == k) = false := beq_false_of_ne (fun h => hki h.symm)
        simp only [collSet, if_neg hk, List.lookup, hb]
        exact ih

/-! ## Inversion of a successful extraction run -/

lemma extract_ok_inversion (env : TaskEnv) (n u : String) (size : ℚ)
    (status ca fp : String) (st st' : Store) (out : PyDict)
    (h : extract_form_task env n u size status ca fp st = (st', Except.ok out)) :
    ∃ content size',
      env.engineContent = Option.some content ∧
      (size = 0 → env.premarkGetOk = true →
        size' = getNumD ((get_image n "imagedetail" st).getD []) "Size" 0) ∧
      (¬ size = 0 → size' = size) ∧
      st' =
        upsert_image (extractMeta n u ca fp size').dict "imagedetail" n
          (upsert_image
            (extractFormDoc n u ca fp size'
              (wrapResult (post_processing env.jsonParse content)))
            "forminformation" n
            (premarkStore env n u size ca fp st)) ∧
      out = [("image_name", PyVal.str n),
             ("analysis_result", wrapResult (post_processing env.jsonParse content))] := by
  simp only [extract_form_task] at h
  cases hdl : env.downloadOk with
  | false => rw [hdl] at h; simp at h
  | true =>
    rw [hdl] at h
    simp only [Bool.not_true, Bool.false_eq_true, if_false] at h
    cases hec : env.engineContent with
    | none => rw [hec] at h; simp at h
    | some content =>
      rw [hec] at h
      cases hfs : fallbackSize env n size st (premarkStore env n u size ca fp st) with
      | error e => rw [hfs] at h; simp at h
      | ok size' =>
        rw [hfs] at h
        cases hfw : env.formWriteOk with
        | false => rw [hfw] at h; simp at h
        | true =>
          rw [hfw] at h
          simp only [Bool.not_true, Bool.false_eq_true, if_false] at h
          cases hdw : env.detailWriteOk with
          | false => rw [hdw] at h; simp at h
          | true =>
            rw [hdw] at h
            simp only [Bool.not_true, Bool.false_eq_true, if_false,
              Prod.mk.injEq, Except.ok.injEq] at h
            obtain ⟨h1, h2⟩ := h
            refine ⟨content, size', rfl, ?_, ?_, h1.symm, h2.symm⟩
            · intro hs hpg
              simp only [fallbackSize, if_pos hs, premarkExisting, hpg, if_true] at hfs
              exact (Except.ok.injEq _ _).mp hfs |>.symm
            · intro hs
              simp only [fallbackSize, if_neg hs] at hfs
              exact (Except.ok.injEq _ _).mp hfs |>.symm

lemma wrapResult_is_obj (r : PyVal) : ∃ l, wrapResult r = PyVal.obj l := by
  cases r <;> simp [wrapResult]

/-! ## Claim theorems -/

/-- C1: for every item, after an `extract_form_task` run terminates with
SUCCESS, the `imagedetail` record for the item has status `"Completed"` and
a `forminformation` record keyed by the same name exists whose
`analysis_result` field is a mapping; a JSON-parse failure is embedded as
an error mapping and a parsed non-mapping value is wrapped into
`{"raw": str(value)}` rather than dropped. -/
theorem C1_success_completed_and_extraction_record
    (env : TaskEnv) (n u : String) (size : ℚ) (status ca fp : String)
    (st st' : Store) (out : PyDict)
    (h : extract_form_task env n u size status ca fp st = (st', Except.ok out)) :
    docField st' "imagedetail" n "Status" = Option.some (PyVal.str "Completed") ∧
    (∃ l, docField st' "forminformation" n "analysis_result" =
      Option.some (PyVal.obj l)) ∧
    (∀ content, env.engineContent = Option.some content →
      (env.jsonParse content = Option.none →
        docField st' "forminformation" n "analysis_result" =
          Option.some (PyVal.obj
            [("error", PyVal.str "Invalid JSON format"),
             ("raw_response", PyVal.str content)])) ∧
      (∀ v, env.jsonParse content = Option.some v → (∀ m, ¬ v = PyVal.obj m) →
        docField st' "forminformation" n "analysis_result" =
          Option.some (PyVal.obj [("raw", PyVal.str (pyStr v))]))) := by
  obtain ⟨content, size', hec, hsz1, hsz2, hst, hout⟩ :=
    extract_ok_inversion env n u size status ca fp st st' out h
  subst hst
  have hne1 : ¬ ("imagedetail" = "forminformation") := by decide
  have hne2 : ¬ ("forminformation" = "imagedetail") := by decide
  refine ⟨?_, ?_, ?_⟩
  · simp [docField, get_image, upsert_image, getColl_setColl, lookup_collSet,
      extractMeta, ImageData.dict, List.lookup]
  · obtain ⟨l, hl⟩ := wrapResult_is_obj (post_processing env.jsonParse content)
    refine ⟨l, ?_⟩
    simp [docField, get_image, upsert_image, getColl_setColl, lookup_collSet,
      extractFormDoc, hne2, List.lookup, hl]
  · intro c hc
    rw [hec] at hc
    obtain rfl : content = c := by
      exact (Option.some.injEq _ _).mp hc
    constructor
    · intro hp
      simp [docField, get_image, upsert_image, getColl_setColl, lookup_collSet,
        extractFormDoc, hne2, List.lookup, post_processing, hp, wrapResult]
    · intro v hv hobj
      have hw : wrapResult (post_processing env.jsonParse content) =
          PyVal.obj [("raw", PyVal.str (pyStr v))] := by
        rw [post_processing, hv]
        cases v with
        | obj m => exact absurd rfl (hobj m)
        | str s => rfl
        | num q => rfl
        | bool b => rfl
        | none => rfl
        | list l => rfl
      simp [docField, get_image, upsert_image, getColl_setColl, lookup_collSet,
        extractFormDoc, hne2, List.lookup, hw]

/-- C1 witness: a concrete SUCCESS run on the empty store, with the engine
returning the non-mapping JSON value `"notadict"`, ends with the item
marked Completed and the wrapped extraction record present. -/
theorem C1_success_completed_and_extraction_record_witness :
    (let env : TaskEnv := ⟨true, true, true, Option.some "x",
        (fun _ => Option.some (PyVal.str "notadict")), true, true, true⟩
     let run := extract_form_task env "img1" "u" 1 "Uploaded" "t" "f" []
     docField run.1 "imagedetail" "img1" "Status" =
        Option.some (PyVal.str "Completed") ∧
     docField run.1 "forminformation" "img1" "analysis_result" =
        Option.some (PyVal.obj
          [("raw", PyVal.str (pyStr (PyVal.str "notadict")))])) := by
  have h := C1_success_completed_and_extraction_record
    ⟨true, true, true, Option.some "x",
      (fun _ => Option.some (PyVal.str "notadict")), true, true, true⟩
    "img1" "u" 1 "Uploaded" "t" "f" []
    (extract_form_task
      ⟨true, true, true, Option.some "x",
        (fun _ => Option.some (PyVal.str "notadict")), true, true, true⟩
      "img1" "u" 1 "Uploaded" "t" "f" []).1
    [("image_name", PyVal.str "img1"),
     ("analysis_result", PyVal.obj
        [("raw", PyVal.str (pyStr (PyVal.str "notadict")))])]
    rfl
  exact ⟨h.1,
    (h.2.2 "x" rfl).2 (PyVal.str "notadict") rfl
      (fun m hm => PyVal.noConfusion hm)⟩

/-- C9: on a successful run, the final Completed `imagedetail` record and
the `forminformation` record are built verbatim from the job arguments
(`image_url`, `created_at`, `folder_path`); only `Size` falls back to the
stored value, and only when the supplied size is falsy.  In particular an
empty `created_at` or `folder_path` argument overwrites the stored values
with empty strings. -/
theorem C9_records_built_from_job_args
    (env : TaskEnv) (n u : String) (size : ℚ) (status ca fp : String)
    (st st' : Store) (out : PyDict)
    (h : extract_form_task env n u size status ca fp st = (st', Except.ok out)) :
    ∃ size' : ℚ,
      get_image n "imagedetail" st' =
        Option.some (ImageData.dict (extractMeta n u ca fp size')) ∧
      (∃ r, get_image n "forminformation" st' =
        Option.some (extractFormDoc n u ca fp size' r)) ∧
      (¬ size = 0 → size' = size) ∧
      (size = 0 → env.premarkGetOk = true →
        size' = getNumD ((get_image n "imagedetail" st).getD []) "Size" 0) := by
  obtain ⟨content, size', hec, hsz1, hsz2, hst, hout⟩ :=
    extract_ok_inversion env n u size status ca fp st st' out h
  subst hst
  have hne2 : ¬ ("forminformation" = "imagedetail") := by decide
  refine ⟨size', ?_, ?_, hsz2, hsz1⟩
  · simp [get_image, upsert_image, getColl_setColl, lookup_collSet]
  · refine ⟨wrapResult (post_processing env.jsonParse content), ?_⟩
    simp [get_image, upsert_image, getColl_setColl, lookup_collSet, hne2]

/-- C9 witness: a concrete run with empty `created_at`/`folder_path`
arguments and falsy size against a store holding `CreatedAt "orig"` and
`Size 7`: the final record keeps Size 7 but overwrites CreatedAt with `""`. -/
theorem C9_records_built_from_job_args_witness :
    (let env : TaskEnv := ⟨true, true, true, Option.some "x",
        (fun _ => Option.some (PyVal.obj [("k", PyVal.str "v")])), true, true, true⟩
     let st : Store := [("imagedetail",
        [("img1", [("CreatedAt", PyVal.str "orig"), ("Size", PyVal.num 7)])])]
     let run := extract_form_task env "img1" "u" 0 "Uploaded" "" "" st
     get_image "img1" "imagedetail" run.1 =
        Option.some (ImageData.dict (extractMeta "img1" "u" "" "" 7))) := by
  obtain ⟨size', h1, h2, h3, h4⟩ := C9_records_built_from_job_args
    ⟨true, true, true, Option.some "x",
      (fun _ => Option.some (PyVal.obj [("k", PyVal.str "v")])), true, true, true⟩
    "img1" "u" 0 "Uploaded" "" ""
    [("imagedetail", [("img1", [("CreatedAt", PyVal.str "orig"),
        ("Size", PyVal.num 7)])])]
    (extract_form_task
      ⟨true, true, true, Option.some "x",
        (fun _ => Option.some (PyVal.obj [("k", PyVal.str "v")])), true, true, true⟩
      "img1" "u" 0 "Uploaded" "" ""
      [("imagedetail", [("img1", [("CreatedAt", PyVal.str "orig"),
          ("Size", PyVal.num 7)])])]).1
    [("image_name", PyVal.str "img1"),
     ("analysis_result", PyVal.obj [("k", PyVal.str "v")])]
    rfl
  have hsz : size' = 7 := by
    have := h4 rfl rfl
    simpa using this
  rw [hsz] at h1
  exact h1

/-! ## Folder deletion lemmas -/

lemma deleteChunksAux_spec (l : List String) (cur : List String)
    (hcur : cur.length < 450) :
    (∀ b ∈ deleteChunksAux l cur, b.length ≤ 450) ∧
    (deleteChunksAux l cur).flatten = cur.reverse ++ l := by
  induction l generalizing cur with
  | nil =>
    by_cases hc : cur.isEmpty
    · have hnil : cur = [] := List.isEmpty_iff.mp hc
      subst hnil
      simp [deleteChunksAux]
    · have hunf : deleteChunksAux [] cur = [cur.reverse] := by
        simp only [deleteChunksAux]
        rw [if_neg hc]
      rw [hunf]
      constructor
      · intro b hb
        rcases List.mem_singleton.mp hb with rfl
        simp only [List.length_reverse]
        omega
      · simp
  | cons id rest ih =>
    by_cases hlen : (id :: cur).length ≥ 450
    · obtain ⟨iha, ihb⟩ := ih [] (by norm_num)
      have hunf : deleteChunksAux (id :: rest) cur =
          (id :: cur).reverse :: deleteChunksAux rest [] := by
        simp only [deleteChunksAux]
        rw [if_pos hlen]
      constructor
      · intro b hb
        rw [hunf] at hb
        rcases List.mem_cons.mp hb with rfl | hb
        · simp only [List.length_reverse, List.length_cons]
          omega
        · exact iha b hb
      · rw [hunf]
        simp [ihb]
    · obtain ⟨iha, ihb⟩ := ih (id :: cur) (by simpa using Nat.lt_of_not_le hlen)
      have hunf : deleteChunksAux (id :: rest) cur = deleteChunksAux rest (id :: cur) := by
        simp only [deleteChunksAux]
        rw [if_neg hlen]
      constructor
      · intro b hb
        rw [hunf] at hb
        exact iha b hb
      · rw [hunf, ihb]
        simp

lemma key_unique (c : Collection) (hnodup : (c.map Prod.fst).Nodup)
    (p p' : String × PyDict) (hp : p ∈ c) (hp' : p' ∈ c) (h : p.1 = p'.1) :
    p = p' := by
  induction c with
  | nil => cases hp
  | cons hd tl ih =>
    simp only [List.map_cons, List.nodup_cons] at hnodup
    obtain ⟨hnotin, hnd⟩ := hnodup
    rcases List.mem_cons.mp hp with rfl | hptl
    · rcases List.mem_cons.mp hp' with rfl | hptl'
      · rfl
      · exact absurd (List.mem_map.mpr ⟨p', hptl', h.symm⟩) hnotin
    · rcases List.mem_cons.mp hp' with rfl | hptl'
      · exact absurd (List.mem_map.mpr ⟨p, hptl, h⟩) hnotin
      · exact ih hnd hptl hptl'

lemma collDeleteMany_filter (c : Collection) (q : PyDict → Bool)
    (hnodup : (c.map Prod.fst).Nodup) :
    collDeleteMany c ((c.filter (fun p => q p.2)).map Prod.fst) =
      c.filter (fun p => !(q p.2)) := by
  unfold collDeleteMany
  apply List.filter_congr
  intro p hp
  have hkey : ((c.filter (fun p => q p.2)).map Prod.fst).contains p.1 = q p.2 := by
    cases hq : q p.2 with
    | true =>
      exact List.elem_iff.mpr
        (List.mem_map.mpr ⟨p, List.mem_filter.mpr ⟨hp, hq⟩, rfl⟩)
    | false =>
      cases hcon : ((c.filter (fun p => q p.2)).map Prod.fst).contains p.1 with
      | false => rfl
      | true =>
        exfalso
        obtain ⟨p', hp', hpi⟩ := List.mem_map.mp (List.elem_iff.mp hcon)
        obtain ⟨hp'c, hq'⟩ := List.mem_filter.mp hp'
        have : p' = p := key_unique c hnodup p' p hp'c hp hpi
        rw [this] at hq'
        rw [hq] at hq'
        exact Bool.false_ne_true hq'
  rw [hkey]

/-- C5 counterexample: `delete_folder "a"` removes an `imagedetail` record
whose `folderPath` is exactly `"a"`, although `"a"` does not lie in the
claimed half-open range starting at `"a" ++ "/"`. -/
theorem C5_delete_folder_range_counterexample :
    strLeB ("a" ++ "/") "a" = false ∧
    (get_image "x" "imagedetail"
      (delete_folder "a"
        [("imagedetail", [("x", [("FolderPath", PyVal.str "a")])])]).1).isNone = true ∧
    (get_image "x" "imagedetail"
      [("imagedetail", [("x", [("FolderPath", PyVal.str "a")])])]).isSome = true := by
  exact ⟨rfl, rfl, rfl⟩

/-- C5 (amended): `delete_folder P` removes from each item-bearing
collection exactly the records whose `FolderPath` lies in the closed range
from `P` to `P ++ SENTINEL` — including records with `FolderPath` equal to
`P` itself and records whose `FolderPath` merely extends `P` as a string
prefix — committing the deletions in batches of at most 450 document ids
that together cover exactly the matched records.  (Document ids are unique
per collection, as Firestore guarantees.) -/
theorem C5_delete_folder_closed_range
    (path : String) (st : Store)
    (h1 : ((getColl st "imagedetail").map Prod.fst).Nodup)
    (h2 : ((getColl st "forminformation").map Prod.fst).Nodup) :
    getColl (delete_folder path st).1 "imagedetail" =
      (getColl st "imagedetail").filter
        (fun p => !(folderPathInRange path (path ++ SENTINEL) p.2)) ∧
    getColl (delete_folder path st).1 "forminformation" =
      (getColl st "forminformation").filter
        (fun p => !(folderPathInRange path (path ++ SENTINEL) p.2)) ∧
    (delete_folder path st).2 =
      [("imagedetail",
        deleteChunksAux (((getColl st "imagedetail").filter
          (fun p => folderPathInRange path (path ++ SENTINEL) p.2)).map Prod.fst) []),
       ("forminformation",
        deleteChunksAux (((getColl st "forminformation").filter
          (fun p => folderPathInRange path (path ++ SENTINEL) p.2)).map Prod.fst) [])] ∧
    (∀ col batches, (col, batches) ∈ (delete_folder path st).2 →
      (∀ b ∈ batches, b.length ≤ 450) ∧
      batches.flatten = ((getColl st col).filter
        (fun p => folderPathInRange path (path ++ SENTINEL) p.2)).map Prod.fst) := by
  have hfc1 : ¬ (FOLDER_COLLECTION = "imagedetail") := by decide
  have hfc2 : ¬ (FOLDER_COLLECTION = "forminformation") := by decide
  have hif1 : ¬ ("imagedetail" = "forminformation") := by decide
  simp only [delete_folder, collections_to_clean, List.foldl_cons, List.foldl_nil,
    getColl_setColl, if_neg hfc1, if_neg hfc2, if_neg hif1, if_pos rfl,
    List.nil_append, List.cons_append, List.append_nil]
  refine ⟨?_, ?_, ?_, ?_⟩
  · exact collDeleteMany_filter _ _ h1
  · exact collDeleteMany_filter _ _ h2
  · trivial
  · intro col batches hmem
    rcases List.mem_cons.mp hmem with heq | hmem2
    · injection heq with hcol hbat
      subst hcol
      subst hbat
      obtain ⟨hb, hf⟩ := deleteChunksAux_spec
        (((getColl st "imagedetail").filter
          (fun p => folderPathInRange path (path ++ SENTINEL) p.2)).map Prod.fst)
        [] (by norm_num)
      refine ⟨hb, ?_⟩
      rw [hf]
      simp
    · rcases List.mem_cons.mp hmem2 with heq | hnil
      · injection heq with hcol hbat
        subst hcol
        subst hbat
        obtain ⟨hb, hf⟩ := deleteChunksAux_spec
          (((getColl st "forminformation").filter
            (fun p => folderPathInRange path (path ++ SENTINEL) p.2)).map Prod.fst)
          [] (by norm_num)
        refine ⟨hb, ?_⟩
        rw [hf]
        simp
      · cases hnil

/-- C5 witness: deleting folder `"a"` on a concrete store removes exactly
the records with `FolderPath` in the closed range from `"a"` (here `"a"`
itself and `"a/sub"`, but not `"b"`). -/
theorem C5_delete_folder_closed_range_witness :
    getColl (delete_folder "a"
        [("imagedetail",
          [("x", [("FolderPath", PyVal.str "a")]),
           ("y", [("FolderPath", PyVal.str "a/sub")]),
           ("w", [("FolderPath", PyVal.str "b")])]),
         ("forminformation", [("z", [("FolderPath", PyVal.str "a")])])]).1
        "imagedetail" =
      (getColl
        [("imagedetail",
          [("x", [("FolderPath", PyVal.str "a")]),
           ("y", [("FolderPath", PyVal.str "a/sub")]),
           ("w", [("FolderPath", PyVal.str "b")])]),
         ("forminformation", [("z", [("FolderPath", PyVal.str "a")])])]
        "imagedetail").filter
        (fun p => !(folderPathInRange "a" ("a" ++ SENTINEL) p.2)) :=
  (C5_delete_folder_closed_range "a"
    [("imagedetail",
      [("x", [("FolderPath", PyVal.str "a")]),
       ("y", [("FolderPath", PyVal.str "a/sub")]),
       ("w", [("FolderPath", PyVal.str "b")])]),
     ("forminformation", [("z", [("FolderPath", PyVal.str "a")])])]
    (by decide) (by decide)).1

/-- C2: `extract_form_task` raises (job FAILURE) exactly when one of its
transport/IO operations fails: the image download, the engine invocation,
the store read in the size fallback, or either store write.  A JSON-parse
failure never raises: with healthy transports the job is SUCCESS and the
parse error is embedded in the returned payload. -/
theorem C2_failure_iff_transport
    (env : TaskEnv) (n u : String) (size : ℚ) (status ca fp : String) (st : Store) :
    (taskRaised (extract_form_task env n u size status ca fp st).2 =
      (!env.downloadOk || env.engineContent.isNone ||
        (decide (size = 0) && !env.premarkGetOk && !env.fallbackGetOk) ||
        !env.formWriteOk || !env.detailWriteOk)) ∧
    (∀ content, env.downloadOk = true → env.engineContent = Option.some content →
      env.formWriteOk = true → env.detailWriteOk = true →
      (env.premarkGetOk = true ∨ env.fallbackGetOk = true ∨ ¬ size = 0) →
      env.jsonParse content = Option.none →
      ∃ st' out,
        extract_form_task env n u size status ca fp st = (st', Except.ok out) ∧
        List.lookup "analysis_result" out =
          Option.some (PyVal.obj
            [("error", PyVal.str "Invalid JSON format"),
             ("raw_response", PyVal.str content)])) := by
  have main : taskRaised (extract_form_task env n u size status ca fp st).2 =
      (!env.downloadOk || env.engineContent.isNone ||
        (decide (size = 0) && !env.premarkGetOk && !env.fallbackGetOk) ||
        !env.formWriteOk || !env.detailWriteOk) := by
    obtain ⟨pg, ps, dl, ec, jp, fg, fw, dw⟩ := env
    by_cases hsz : size = 0 <;>
      cases dl <;> cases pg <;> cases fg <;> cases fw <;> cases dw <;> cases ec <;>
        simp [extract_form_task, taskRaised, fallbackSize, premarkExisting, hsz]
  refine ⟨main, ?_⟩
  intro content hdl hec hfw hdw hdisj hp
  have hmid : (decide (size = 0) && !env.premarkGetOk && !env.fallbackGetOk) = false := by
    rcases hdisj with hg | hg | hg <;> simp [hg]
  have hraised : taskRaised (extract_form_task env n u size status ca fp st).2 = false := by
    rw [main, hdl, hec, hfw, hdw, hmid]
    rfl
  cases hre : (extract_form_task env n u size status ca fp st).2 with
  | error e => rw [hre] at hraised; exact absurd hraised (by simp [taskRaised])
  | ok out =>
    have hpair : extract_form_task env n u size status ca fp st =
        ((extract_form_task env n u size status ca fp st).1, Except.ok out) := by
      rw [← hre]
    obtain ⟨content', size', hec', hsz1, hsz2, hst, hout⟩ :=
      extract_ok_inversion env n u size status ca fp st _ out hpair
    rw [hec] at hec'
    obtain rfl : content = content' := (Option.some.injEq _ _).mp hec'
    refine ⟨_, out, hpair, ?_⟩
    rw [hout]
    simp only [List.lookup]
    rw [show (("analysis_result" == "image_name")) = false from rfl]
    simp [post_processing, hp, wrapResult]

/-- C2 witness: a concrete run whose engine text fails JSON parsing is
SUCCESS (does not raise) and carries the embedded error mapping. -/
theorem C2_failure_iff_transport_witness :
    taskRaised (extract_form_task
        ⟨true, true, true, Option.some "x", (fun _ => Option.none), true, true, true⟩
        "img1" "u" 1 "Uploaded" "t" "f" []).2 = false ∧
    (∃ st' out,
      extract_form_task
          ⟨true, true, true, Option.some "x", (fun _ => Option.none), true, true, true⟩
          "img1" "u" 1 "Uploaded" "t" "f" [] = (st', Except.ok out) ∧
      List.lookup "analysis_result" out =
        Option.some (PyVal.obj
          [("error", PyVal.str "Invalid JSON format"),
           ("raw_response", PyVal.str "x")])) := by
  have h := C2_failure_iff_transport
    ⟨true, true, true, Option.some "x", (fun _ => Option.none), true, true, true⟩
    "img1" "u" 1 "Uploaded" "t" "f" []
  exact ⟨h.1.trans rfl,
    h.2 "x" rfl rfl rfl rfl (Or.inr (Or.inr one_ne_zero)) rfl⟩

/-- C3: enqueueing extraction for a name with no `imagedetail` record
raises HTTP 404, leaves the store and the job queue unchanged, and
enqueues nothing. -/
theorem C3_enqueue_missing_record_rejected
    (premarkOk : Bool) (task_id : String) (data : ExtractFormData) (st : ApiState)
    (h : get_image data.ImageName "imagedetail" st.store = Option.none) :
    queue_extract_form premarkOk task_id data st =
      (st, Except.error (HTTPErr.httpException 404 "Image not found. Upload first.")) := by
  simp [queue_extract_form, h]

/-- C3 witness: the concrete empty store yields exactly the 404 rejection
with unchanged state. -/
theorem C3_enqueue_missing_record_rejected_witness :
    queue_extract_form true "tid"
        ⟨"f", "Uploaded", "u", 1, "img1", "t"⟩ ⟨[], []⟩ =
      (⟨[], []⟩,
       Except.error (HTTPErr.httpException 404 "Image not found. Upload first.")) :=
  C3_enqueue_missing_record_rejected true "tid"
    ⟨"f", "Uploaded", "u", 1, "img1", "t"⟩ ⟨[], []⟩ rfl

/-- C4: when the stored record's status is exactly `"Processing"`, the
enqueue endpoint returns `already_processing` while writing nothing and
enqueueing nothing (full no-op); with any other stored record that passes
the falsy existence guard (a non-empty document) a job is always enqueued —
the status check is the only de-duplication guard, and it blocks nothing
else (not even a failing pre-mark write). -/
theorem C4_already_processing_short_circuit
    (premarkOk : Bool) (task_id : String) (data : ExtractFormData) (st : ApiState)
    (existing : PyDict)
    (hex : get_image data.ImageName "imagedetail" st.store = Option.some existing) :
    (pyEqStr (List.lookup "Status" existing) "Processing" = true →
      queue_extract_form premarkOk task_id data st =
        (st, Except.ok QueueResp.already_processing)) ∧
    (existing.isEmpty = false →
      pyEqStr (List.lookup "Status" existing) "Processing" = false →
      (queue_extract_form premarkOk task_id data st).2 =
          Except.ok (QueueResp.queued task_id) ∧
      (queue_extract_form premarkOk task_id data st).1.queue =
        st.queue ++ [⟨data.ImageName, data.ImagePath, data.Size, data.Status,
          data.CreatedAt, data.FolderPath⟩]) := by
  constructor
  · intro hp
    have hne : existing.isEmpty = false := by
      cases existing with
      | nil => simp [pyEqStr, List.lookup] at hp
      | cons a tl => rfl
    simp [queue_extract_form, hex, hne, hp]
  · intro hne hp
    cases hpre : premarkOk <;> simp [queue_extract_form, hex, hne, hp, hpre]

/-- C4 witness: a Processing record short-circuits as a no-op on a concrete
state, and an `"Uploaded"` record enqueues exactly one job even when the
pre-mark write fails. -/
theorem C4_already_processing_short_circuit_witness :
    (queue_extract_form true "tid" ⟨"f", "U", "u", 1, "img1", "t"⟩
        ⟨[("imagedetail", [("img1", [("Status", PyVal.str "Processing")])])], []⟩ =
      (⟨[("imagedetail", [("img1", [("Status", PyVal.str "Processing")])])], []⟩,
       Except.ok QueueResp.already_processing)) ∧
    (queue_extract_form false "tid" ⟨"f", "U", "u", 1, "img2", "t"⟩
        ⟨[("imagedetail", [("img2", [("Status", PyVal.str "Uploaded")])])], []⟩).1.queue =
      [⟨"img2", "u", 1, "U", "t", "f"⟩] := by
  constructor
  · exact (C4_already_processing_short_circuit true "tid"
      ⟨"f", "U", "u", 1, "img1", "t"⟩
      ⟨[("imagedetail", [("img1", [("Status", PyVal.str "Processing")])])], []⟩
      [("Status", PyVal.str "Processing")] rfl).1 rfl
  · exact ((C4_already_processing_short_circuit false "tid"
      ⟨"f", "U", "u", 1, "img2", "t"⟩
      ⟨[("imagedetail", [("img2", [("Status", PyVal.str "Uploaded")])])], []⟩
      [("Status", PyVal.str "Uploaded")] rfl).2 rfl rfl).2

/-- C6: `rename_folder A B` updates `FolderPath` from `A` to `B` on exactly
the `imagedetail` records whose `FolderPath` equals `A` by exact string
match (records under descendant subfolders such as `A/sub` keep their
value), and leaves the `forminformation` collection entirely unchanged. -/
theorem C6_rename_exact_match_only (old_path new_path : String) (st : Store) :
    getColl (rename_folder old_path new_path st) "imagedetail" =
      (getColl st "imagedetail").map (fun p =>
        if pyEqStr (List.lookup "FolderPath" p.2) old_path then
          (p.1, dictSet p.2 "FolderPath" (PyVal.str new_path))
        else p) ∧
    getColl (rename_folder old_path new_path st) "forminformation" =
      getColl st "forminformation" := by
  have hfc1 : ¬ (FOLDER_COLLECTION = "imagedetail") := by decide
  have hfc2 : ¬ (FOLDER_COLLECTION = "forminformation") := by decide
  have hif1 : ¬ ("imagedetail" = "forminformation") := by decide
  cases hl : List.lookup (encode_path old_path) (getColl st FOLDER_COLLECTION) with
  | none => simp [rename_folder, hl, getColl_setColl, hfc1, hfc2, hif1]
  | some oldDoc => simp [rename_folder, hl, getColl_setColl, hfc1, hfc2, hif1]

/-! ## Timestamp format lemmas -/

lemma digitChar_isDigit (d : Nat) : isDigitCh (digitChar d) = true := by
  unfold digitChar
  split <;> rfl

lemma natDecimalAux_digits (fuel n : Nat) :
    (natDecimalAux fuel n).all isDigitCh = true := by
  induction fuel generalizing n with
  | zero => rfl
  | succ fuel ih =>
    by_cases hlt : n < 10
    · simp [natDecimalAux, hlt, digitChar_isDigit]
    · simp [natDecimalAux, hlt, List.all_append, digitChar_isDigit, ih]

lemma natDecimalAux_length (fuel : Nat) :
    ∀ k n : Nat, 1 ≤ k → n < 10 ^ k → (natDecimalAux fuel n).length ≤ k := by
  induction fuel with
  | zero => intro k n hk hn; simp [natDecimalAux]
  | succ fuel ih =>
    intro k n hk hn
    by_cases hlt : n < 10
    · simp [natDecimalAux, hlt]
      omega
    · have hk2 : 2 ≤ k := by
        by_contra hk2
        have hk1 : k = 1 := by omega
        subst hk1
        simp at hn
        omega
      have hpow : 10 ^ k = 10 ^ (k - 1) * 10 := by
        rw [← pow_succ]
        congr 1
        omega
      have hdiv : n / 10 < 10 ^ (k - 1) := by
        rw [Nat.div_lt_iff_lt_mul (by norm_num)]
        rw [hpow] at hn
        exact hn
      have hrec := ih (k - 1) (n / 10) (by omega) hdiv
      simp only [natDecimalAux, if_neg hlt, List.length_append, List.length_cons,
        List.length_nil]
      omega

lemma padNum_length (w n : Nat) (hw : 1 ≤ w) (hn : n < 10 ^ w) :
    (padNum w n).length = w := by
  have hlen : (natDecimal n).length ≤ w := natDecimalAux_length (n + 1) w n hw hn
  unfold padNum
  simp only [List.length_append, List.length_replicate]
  omega

lemma padNum_digits (w n : Nat) : (padNum w n).all isDigitCh = true := by
  unfold padNum
  rw [List.all_append]
  refine Bool.and_eq_true_iff.mpr ⟨?_, natDecimalAux_digits (n + 1) n⟩
  refine List.all_eq_true.mpr ?_
  intro c hc
  rw [List.eq_of_mem_replicate hc]
  rfl

lemma digit_ne_dot {c : Char} (hdig : isDigitCh c = true) : ¬ c = '.' := by
  intro he
  subst he
  exact absurd hdig (by decide)

lemma digitRun_single (n : Nat) (l : List Char) (hlen : l.length = n)
    (hdig : l.all isDigitCh = true) : digitRun [n] l = true := by
  simp [digitRun, hlen, hdig]

lemma digitRun_cons (n m : Nat) (ns : List Nat) (l1 rest : List Char)
    (hlen : l1.length = n) (hdig : l1.all isDigitCh = true)
    (hrec : digitRun (m :: ns) rest = true) :
    digitRun (n :: m :: ns) (l1 ++ '_' :: rest) = true := by
  have htake : (l1 ++ '_' :: rest).take n = l1 := by
    rw [← hlen]
    exact List.take_left l1 _
  have hdrop : (l1 ++ '_' :: rest).drop n = '_' :: rest := by
    rw [← hlen]
    exact List.drop_left l1 _
  simp [digitRun, htake, hdrop, hlen, hdig, hrec]

lemma isPre_refl (l : List Char) : isPre l l = true := by
  induction l with
  | nil => rfl
  | cons c t ih => simp [isPre, ih]

lemma splitFirst_no_dot (r : List Char) (t : List Char)
    (hnd : ∀ c ∈ t, ¬ c = '.') :
    splitFirst ('.' :: r) (t ++ '.' :: r) = t := by
  induction t with
  | nil =>
    simp only [List.nil_append, splitFirst]
    rw [if_pos (isPre_refl _)]
  | cons c t ih =>
    have hc : ¬ c = '.' := hnd c (List.mem_cons_self c t)
    have hpre : isPre ('.' :: r) (c :: (t ++ '.' :: r)) = false := by
      have hb : ('.' == c) = false := by
        rw [beq_eq_false_iff_ne]
        exact fun he => hc he.symm
      simp [isPre, hb]
    simp only [List.cons_append, splitFirst, List.append_eq, hpre,
      Bool.false_eq_true, if_false]
    rw [ih (fun c hc => hnd c (List.mem_cons_of_mem _ hc))]

/-- C7 counterexample: on the asynchronous `UploadJob` path the `createdAt`
written for a concrete clock reading is `"20240102_030405_654"` — a
three-digit fractional field — which does not match the claimed
`YYYYMMDD_HHMMSS_ffffff` format. -/
theorem C7_created_at_format_counterexample :
    upload_task_created_at 2024 1 2 3 4 5 987654 ".jpg" = "20240102_030405_654" ∧
    matchesSpecTimestampFormat (upload_task_created_at 2024 1 2 3 4 5 987654 ".jpg")
      = false ∧
    matchesSpecTimestampFormat (upload_sync_created_at 2024 1 2 3 4 5 678901)
      = true := by
  refine ⟨by decide, by decide, by decide⟩

set_option maxHeartbeats 1000000 in
/-- C7 (amended): the synchronous upload path writes `createdAt` in the
claimed `YYYYMMDD_HHMMSS_ffffff` format (six microsecond digits), but the
asynchronous `UploadJob` path writes `YYYYMMDD_HHMMSS_mmm` with only three
millisecond digits; both are all-digit runs separated by underscores and
hence lexically sortable within their own path. -/
theorem C7_created_at_formats
    (y mo d h mi s ms micro : Nat) (ext : String) (r : List Char)
    (hy1 : 1 ≤ y) (hy : y < 10 ^ 4) (hmo : mo < 10 ^ 2) (hd : d < 10 ^ 2)
    (hh : h < 10 ^ 2) (hmi : mi < 10 ^ 2) (hs : s < 10 ^ 2)
    (hmicro : micro < 10 ^ 6) (hext : ext.data = '.' :: r) :
    matchesSpecTimestampFormat (upload_sync_created_at y mo d h mi s micro) = true ∧
    matchesMsTimestampFormat (upload_task_created_at y mo d h mi s ms ext) = true := by
  have l4 := padNum_length 4 y (by norm_num) hy
  have l2mo := padNum_length 2 mo (by norm_num) hmo
  have l2d := padNum_length 2 d (by norm_num) hd
  have l2h := padNum_length 2 h (by norm_num) hh
  have l2mi := padNum_length 2 mi (by norm_num) hmi
  have l2s := padNum_length 2 s (by norm_num) hs
  have l6 := padNum_length 6 micro (by norm_num) hmicro
  have l3 := padNum_length 3 (ms % 1000) (by norm_num)
    (by simpa using Nat.mod_lt ms (show 0 < 1000 by norm_num))
  have h8len : (padNum 4 y ++ (padNum 2 mo ++ padNum 2 d)).length = 8 := by
    simp [List.length_append, l4, l2mo, l2d]
  have h8dig : (padNum 4 y ++ (padNum 2 mo ++ padNum 2 d)).all isDigitCh = true := by
    simp [List.all_append, padNum_digits]
  have h6len : (padNum 2 h ++ (padNum 2 mi ++ padNum 2 s)).length = 6 := by
    simp [List.length_append, l2h, l2mi, l2s]
  have h6dig : (padNum 2 h ++ (padNum 2 mi ++ padNum 2 s)).all isDigitCh = true := by
    simp [List.all_append, padNum_digits]
  have hassoc : strftimeYmdHMS y mo d h mi s =
      (padNum 4 y ++ (padNum 2 mo ++ padNum 2 d)) ++
        '_' :: (padNum 2 h ++ (padNum 2 mi ++ padNum 2 s)) := by
    simp [strftimeYmdHMS, List.append_assoc]
  constructor
  · show digitRun [8, 6, 6] (strftimeYmdHMS y mo d h mi s ++ ['_'] ++ padNum 6 micro)
      = true
    have hform : strftimeYmdHMS y mo d h mi s ++ ['_'] ++ padNum 6 micro =
        (padNum 4 y ++ (padNum 2 mo ++ padNum 2 d)) ++
          '_' :: ((padNum 2 h ++ (padNum 2 mi ++ padNum 2 s)) ++
            '_' :: padNum 6 micro) := by
      rw [hassoc]
      simp [List.append_assoc]
    rw [hform]
    exact digitRun_cons 8 6 [6] _ _ h8len h8dig
      (digitRun_cons 6 6 [] _ _ h6len h6dig
        (digitRun_single 6 _ l6 (padNum_digits 6 micro)))
  · show digitRun [8, 6, 3]
      (splitFirst ext.data (timestamp_name y mo d h mi s ms ext).data) = true
    have hts : (timestamp_name y mo d h mi s ms ext).data =
        (strftimeYmdHMS y mo d h mi s ++ '_' :: padNum 3 (ms % 1000)) ++ ext.data := by
      simp [timestamp_name, List.append_assoc]
    have hnd : ∀ c ∈ strftimeYmdHMS y mo d h mi s ++ '_' :: padNum 3 (ms % 1000),
        ¬ c = '.' := by
      intro c hc
      rcases List.mem_append.mp hc with hc1 | hc2
      · rw [hassoc] at hc1
        rcases List.mem_append.mp hc1 with hc3 | hc4
        · exact digit_ne_dot (List.all_eq_true.mp h8dig c hc3)
        · rcases List.mem_cons.mp hc4 with rfl | hc5
          · decide
          · exact digit_ne_dot (List.all_eq_true.mp h6dig c hc5)
      · rcases List.mem_cons.mp hc2 with rfl | hc6
        · decide
        · exact digit_ne_dot
            (List.all_eq_true.mp (padNum_digits 3 (ms % 1000)) c hc6)
    rw [hts, hext]
    rw [splitFirst_no_dot r _ hnd]
    have hform2 : strftimeYmdHMS y mo d h mi s ++ '_' :: padNum 3 (ms % 1000) =
        (padNum 4 y ++ (padNum 2 mo ++ padNum 2 d)) ++
          '_' :: ((padNum 2 h ++ (padNum 2 mi ++ padNum 2 s)) ++
            '_' :: padNum 3 (ms % 1000)) := by
      rw [hassoc]
      simp [List.append_assoc]
    rw [hform2]
    exact digitRun_cons 8 6 [3] _ _ h8len h8dig
      (digitRun_cons 6 3 [] _ _ h6len h6dig
        (digitRun_single 3 _ l3 (padNum_digits 3 (ms % 1000))))

/-- C7 witness: the two format facts at a concrete clock reading. -/
theorem C7_created_at_formats_witness :
    matchesSpecTimestampFormat (upload_sync_created_at 2024 1 2 3 4 5 678901) = true ∧
    matchesMsTimestampFormat (upload_task_created_at 2024 1 2 3 4 5 987654 ".jpg")
      = true :=
  C7_created_at_formats 2024 1 2 3 4 5 987654 678901 ".jpg" ['j', 'p', 'g']
    (by norm_num) (by norm_num) (by norm_num) (by norm_num) (by norm_num)
    (by norm_num) (by norm_num) (by norm_num) rfl

/-- C8: evaluating `upsert_folder` on a store that already holds the folder
record: the existing `CreatedAt` is overwritten with the call-time
timestamp, because the merge-set passes `CreatedAt` in its payload.  The
call is therefore not the no-op that the function's docstring ("Create
folder document if not exists") and the spec describe. -/
theorem C8_upsert_folder_overwrites_created_at :
    docField
      [("imagefolders",
        [("a", [("FolderPath", PyVal.str "a"),
                ("CreatedAt", PyVal.str "2024-01-01T00:00:00")])])]
      "imagefolders" "a" "CreatedAt" =
      Option.some (PyVal.str "2024-01-01T00:00:00") ∧
    docField
      (upsert_folder "2025-02-02T00:00:00" "a"
        [("imagefolders",
          [("a", [("FolderPath", PyVal.str "a"),
                  ("CreatedAt", PyVal.str "2024-01-01T00:00:00")])])])
      "imagefolders" "a" "CreatedAt" =
      Option.some (PyVal.str "2025-02-02T00:00:00") :=
  ⟨rfl, rfl⟩

/-- C10: the folder-key encoding is not injective on paths accepted by the
sanitizer: `"a/b"` and `"a__b"` both sanitize to themselves, are distinct,
and encode to the same document id — so `delete_folder "a__b"` deletes the
folder record that `upsert_folder` created for `"a/b"`. -/
theorem C10_encode_path_not_injective :
    sanitize_folder_path "a/b" = Except.ok "a/b" ∧
    sanitize_folder_path "a__b" = Except.ok "a__b" ∧
    ¬ ("a/b" = "a__b") ∧
    encode_path "a/b" = encode_path "a__b" ∧
    (get_image (encode_path "a/b") FOLDER_COLLECTION
      (upsert_folder "t0" "a/b" [])).isSome = true ∧
    (get_image (encode_path "a/b") FOLDER_COLLECTION
      (delete_folder "a__b" (upsert_folder "t0" "a/b" [])).1).isNone = true := by
  refine ⟨rfl, rfl, by decide, by decide, by decide, by decide⟩

end FormExtract
